import Mathlib

/-
Verification development for the AI interview simulator.

The source is a browser application: a live duplex audio session whose
inbound events drive a playback scheduler, a transcript aggregator and a
turn segmenter, plus a teardown routine, an error classifier and a
best-effort welcome-audio generator.  The definitions below are a shallow
embedding of that code: the mutable refs of the component become fields of
one explicit state record, each event handler becomes a pure state
transformer, times and durations are rationals, and the external machinery
(decoded audio buffers, the network session, the TTS model call) appears
only through the values the handlers actually read from it (a chunk is
represented by its decoded duration, the TTS call by its outcome).
-/

/-- The speaker tag of a transcript entry; the source uses the union of the
string literals for You and Interviewer. -/
inductive Speaker where
  | you
  | interviewer
deriving DecidableEq

/-- TranscriptEntry from types.ts: a speaker tag and the text of the turn. -/
structure TranscriptEntry where
  speaker : Speaker
  text : String
deriving DecidableEq

/-- The mutable refs of the App component, gathered into one record:
the playback timeline cursor (nextStartTime), the set of live
AudioBufferSourceNode handles (activeSources, as a list of ids, with
stoppedSources recording every source on which stop was called and nextSourceId
a fresh-id counter), the two turn text buffers, the finished transcript,
the silence-detection flags and timer (the timer is stored as its absolute
deadline), and booleans for each nullable resource handle. -/
structure AppRefs where
  nextStartTime : ℚ
  activeSources : List Nat
  stoppedSources : List Nat
  nextSourceId : Nat
  currentUserText : String
  currentInterviewerText : String
  transcript : List TranscriptEntry
  hasSpokenInTurn : Bool
  isSilent : Bool
  silenceTimer : Option ℚ
  sessionOpen : Bool
  scriptProcessorConnected : Bool
  mediaStreamSourceConnected : Bool
  inputGainConnected : Bool
  outputGainConnected : Bool
  micStreamHeld : Bool
  inputContextOpen : Bool
  outputContextOpen : Bool
deriving DecidableEq

/-- SILENCE_THRESHOLD = 0.01 in the source. -/
def SILENCE_THRESHOLD : ℚ := 1 / 100

/-- SILENCE_DURATION_MS = 1500 in the source. -/
def SILENCE_DURATION_MS : ℚ := 1500

/-- The state of the refs right after a successful start: session open, all
audio nodes wired, empty buffers, timeline cursor zero. -/
def startedRefs : AppRefs where
  nextStartTime := 0
  activeSources := []
  stoppedSources := []
  nextSourceId := 0
  currentUserText := ""
  currentInterviewerText := ""
  transcript := []
  hasSpokenInTurn := false
  isSilent := false
  silenceTimer := none
  sessionOpen := true
  scriptProcessorConnected := true
  mediaStreamSourceConnected := true
  inputGainConnected := true
  outputGainConnected := true
  micStreamHeld := true
  inputContextOpen := true
  outputContextOpen := true

/-- An inbound LiveServerMessage, restricted to the serverContent fields the
handler reads: an optional audio chunk (kept as the duration of its decoded
buffer), the interrupted flag, the two optional transcription deltas and the
turnComplete flag. -/
structure ServerMessage where
  audioChunk : Option ℚ
  interrupted : Bool
  outputTranscription : Option String
  inputTranscription : Option String
  turnComplete : Bool
deriving DecidableEq

/-- String.prototype.trim: drop whitespace from both ends.  (Implemented
directly on the character list so that it evaluates inside the kernel.) -/
def trimStr (s : String) : String :=
  ⟨((s.data.dropWhile Char.isWhitespace).reverse.dropWhile Char.isWhitespace).reverse⟩

/-- String.prototype.toLowerCase, character by character.  (Implemented
directly on the character list so that it evaluates inside the kernel.) -/
def lowerStr (s : String) : String :=
  ⟨s.data.map Char.toLower⟩

/-- A message with every field absent or false. -/
def emptyMsg : ServerMessage where
  audioChunk := none
  interrupted := false
  outputTranscription := none
  inputTranscription := none
  turnComplete := false

/-- A message carrying only an audio chunk of the given decoded duration. -/
def audioMsg (d : ℚ) : ServerMessage :=
  { emptyMsg with audioChunk := some d }

/-- A message carrying only the turnComplete flag. -/
def msgTurnComplete : ServerMessage :=
  { emptyMsg with turnComplete := true }

/-- The audio-chunk branch of onmessage, as a scheduler step: set the cursor
to the maximum of its old value and the current output time, start the new
source at that offset, advance the cursor by the buffer duration and add the
source to the active set.  Returns the new state and the chosen start
offset. -/
def scheduleChunk (st : AppRefs) (currentTime dur : ℚ) : AppRefs × ℚ :=
  let start := max st.nextStartTime currentTime
  ({ st with
      nextStartTime := start + dur,
      activeSources := st.activeSources ++ [st.nextSourceId],
      nextSourceId := st.nextSourceId + 1 }, start)

/-- Removal of a source from the active set when its ended event fires
(natural completion; no stop call is recorded). -/
def sourceEnded (st : AppRefs) (id : Nat) : AppRefs :=
  { st with activeSources := st.activeSources.erase id }

/-- First step of onmessage: if the message carries audio data and the output
context and gain node are present, schedule the decoded chunk. -/
def audioStep (st : AppRefs) (currentTime : ℚ) (msg : ServerMessage) : AppRefs :=
  match msg.audioChunk with
  | some d =>
      if st.outputContextOpen && st.outputGainConnected then
        (scheduleChunk st currentTime d).1
      else st
  | none => st

/-- Second step of onmessage: on interrupted, stop every active source, clear
the active set and reset the timeline cursor to zero. -/
def interruptStep (st : AppRefs) (msg : ServerMessage) : AppRefs :=
  if msg.interrupted then
    { st with
        stoppedSources := st.stoppedSources ++ st.activeSources,
        activeSources := [],
        nextStartTime := 0 }
  else st

/-- Third step of onmessage: append an outputTranscription delta to the
interviewer buffer. -/
def outputTransStep (st : AppRefs) (msg : ServerMessage) : AppRefs :=
  match msg.outputTranscription with
  | some txt => { st with currentInterviewerText := st.currentInterviewerText ++ txt }
  | none => st

/-- Fourth step of onmessage: append an inputTranscription delta to the user
buffer, and mark the turn as having speech when the delta trims non-empty. -/
def inputTransStep (st : AppRefs) (msg : ServerMessage) : AppRefs :=
  match msg.inputTranscription with
  | some txt =>
      let st1 := { st with currentUserText := st.currentUserText ++ txt }
      if trimStr txt = "" then st1 else { st1 with hasSpokenInTurn := true }
  | none => st

/-- The FINALIZE_TURN action of appReducer: push a You entry when the trimmed
user buffer is non-empty, then an Interviewer entry when the trimmed
interviewer buffer is non-empty, and clear both buffers.  (The dispatch site
passes the buffers already trimmed and the reducer only pushes truthy, i.e.
non-empty, strings.) -/
def finalizeTurn (st : AppRefs) : AppRefs :=
  { st with
      transcript := st.transcript
        ++ (if trimStr st.currentUserText = "" then []
            else [{ speaker := Speaker.you, text := trimStr st.currentUserText }])
        ++ (if trimStr st.currentInterviewerText = "" then []
            else [{ speaker := Speaker.interviewer, text := trimStr st.currentInterviewerText }]),
      currentUserText := "",
      currentInterviewerText := "" }

/-- Fifth step of onmessage: on turnComplete, finalize the turn into the
transcript and reset the silence-detection refs (hasSpokenInTurn false,
isSilent false, timer cleared). -/
def turnCompleteStep (st : AppRefs) (msg : ServerMessage) : AppRefs :=
  if msg.turnComplete then
    { finalizeTurn st with
        hasSpokenInTurn := false,
        isSilent := false,
        silenceTimer := none }
  else st

/-- The onmessage callback: the five steps above, in source order. -/
def onmessage (st : AppRefs) (currentTime : ℚ) (msg : ServerMessage) : AppRefs :=
  turnCompleteStep
    (inputTransStep
      (outputTransStep
        (interruptStep (audioStep st currentTime msg) msg) msg) msg) msg

/-- A pending silence timeout whose deadline has passed runs before the next
audio callback: it sets isSilent and leaves the (expired) timer handle in the
ref, exactly as the setTimeout callback in the source does. -/
def fireTimerIfDue (st : AppRefs) (now : ℚ) : AppRefs :=
  match st.silenceTimer with
  | some d => if d ≤ now then { st with isSilent := true } else st
  | none => st

/-- The onaudioprocess callback for one frame, given the capture time and the
RMS of the frame: when the RMS is strictly above the threshold the timer is
cancelled and isSilent cleared; otherwise, if the turn has speech and no
timer is running, a timer is started with deadline now + SILENCE_DURATION_MS.
The returned Bool is whether the frame is forwarded to the session (not
silent, session present). -/
def onaudioprocess (st : AppRefs) (now rms : ℚ) : AppRefs × Bool :=
  let st1 := fireTimerIfDue st now
  let st2 :=
    if SILENCE_THRESHOLD < rms then
      { st1 with silenceTimer := none, isSilent := false }
    else
      if st1.hasSpokenInTurn && st1.silenceTimer.isNone then
        { st1 with silenceTimer := some (now + SILENCE_DURATION_MS) }
      else st1
  (st2, !st2.isSilent && st2.sessionOpen)

/-- Process a list of frames, each given as (capture time, RMS). -/
def runFrames (st : AppRefs) : List (ℚ × ℚ) → AppRefs
  | [] => st
  | (t, r) :: rest => runFrames (onaudioprocess st t r).1 rest

/-- Count, along a list of frames, the transitions of isSilent from false to
true (entries into the Suspended condition). -/
def countSuspend (st : AppRefs) : List (ℚ × ℚ) → Nat
  | [] => 0
  | (t, r) :: rest =>
      let st1 := (onaudioprocess st t r).1
      (if st.isSilent = false ∧ st1.isSilent = true then 1 else 0) + countSuspend st1 rest

/-- cleanupAudio: clear the silence timer, close the session, disconnect
every node, stop the microphone tracks, close both contexts, stop every
active source, clear the active set, reset the timeline cursor, and null all
handles.  Every access in the source is optional-chained, so the routine is
total from any state. -/
def cleanupAudio (st : AppRefs) : AppRefs :=
  { st with
      silenceTimer := none,
      sessionOpen := false,
      scriptProcessorConnected := false,
      mediaStreamSourceConnected := false,
      inputGainConnected := false,
      outputGainConnected := false,
      micStreamHeld := false,
      inputContextOpen := false,
      outputContextOpen := false,
      stoppedSources := st.stoppedSources ++ st.activeSources,
      activeSources := [],
      nextStartTime := 0 }

/-- The start offsets chosen for a list of inbound chunks, each given as
(output-device current time at arrival, decoded duration), processed
sequentially by the scheduler with no interruption in between. -/
def chunkStarts (st : AppRefs) : List (ℚ × ℚ) → List ℚ
  | [] => []
  | (t, d) :: rest => (scheduleChunk st t d).2 :: chunkStarts (scheduleChunk st t d).1 rest

/-- The successive values of the timeline cursor after each chunk of a list
of inbound chunks. -/
def cursorTrace (st : AppRefs) : List (ℚ × ℚ) → List ℚ
  | [] => []
  | (t, d) :: rest =>
      (scheduleChunk st t d).1.nextStartTime :: cursorTrace (scheduleChunk st t d).1 rest

/-
Error classifier, from utils/error.ts.  The untyped error argument is
embedded as the JavaScript value shapes the function distinguishes: null,
undefined, a plain string, an Error instance (with its message), and a plain
object with an optional string message field and an optional wrapped error
field. -/

/-- The shapes of the raw error value passed to getApiErrorMessage. -/
inductive ErrVal where
  | jsNull
  | jsUndefined
  | jsString (s : String)
  | jsErrorInst (message : String)
  | jsObj (message : Option String) (errField : Option ErrVal)

/-- JavaScript truthiness for these shapes: null, undefined and the empty
string are falsy; Error instances and objects are truthy. -/
def truthy : ErrVal → Bool
  | ErrVal.jsNull => false
  | ErrVal.jsUndefined => false
  | ErrVal.jsString s => s != ""
  | ErrVal.jsErrorInst _ => true
  | ErrVal.jsObj _ _ => true

/-- The unwrapping at the top of getApiErrorMessage: when the optional-chained
error field of the value is truthy, inspect that wrapped value instead. -/
def errorToInspect (e : ErrVal) : ErrVal :=
  match e with
  | ErrVal.jsObj m (some v) => if truthy v then v else ErrVal.jsObj m (some v)
  | _ => e

/-- The optional-chained message field of a value, when it is a string:
Error instances and objects with a string message field have one. -/
def messageField : ErrVal → Option String
  | ErrVal.jsErrorInst m => some m
  | ErrVal.jsObj (some m) _ => some m
  | _ => none

/-- The message-extraction chain of getApiErrorMessage: inspect the unwrapped
value as an Error instance, then as a string, then its message field, and
finally fall back to the original value's message field.  Returns none when
no branch applies (the initial unknown-error default is then kept). -/
def extractMessage (e : ErrVal) : Option String :=
  match errorToInspect e with
  | ErrVal.jsErrorInst m => some m
  | ErrVal.jsString s => some s
  | v =>
      match messageField v with
      | some m => some m
      | none => messageField e

/-- The context tag of getApiErrorMessage. -/
inductive ErrContext where
  | start
  | summary
deriving DecidableEq

/-- The initial value of the errorMessage variable in getApiErrorMessage. -/
def unknownMsg : String := "An unknown error occurred."

/-- Whether the character list pat occurs at the head of the second list. -/
def matchesAt : List Char → List Char → Bool
  | [], _ => true
  | _ :: _, [] => false
  | p :: ps, c :: cs => p == c && matchesAt ps cs

/-- Whether the character list pat occurs anywhere in the second list. -/
def hasSub : List Char → List Char → Bool
  | pat, [] => pat.isEmpty
  | pat, c :: cs => matchesAt pat (c :: cs) || hasSub pat cs

/-- String.prototype.includes: whether pat occurs as a substring of s. -/
def containsSub (s pat : String) : Bool := hasSub pat.data s.data

/-- The classification chain of getApiErrorMessage, applied to the extracted
message: the six substring category checks in source order, then the
context-specific fallbacks.  (The final generic fallback line of the source
is unreachable for the two-valued context tag, since both context branches
return.) -/
def classifyMessage (errorMessage : String) (context : ErrContext) : String :=
  let lowerCaseMessage := lowerStr errorMessage
  if containsSub lowerCaseMessage "api key not valid" then
    "The provided API key is invalid or not activated for this project. Please check your configuration."
  else if containsSub lowerCaseMessage "permission denied" || containsSub lowerCaseMessage "403" then
    "You do not have permission to access this resource. This could be due to an incorrect API key or project settings."
  else if containsSub lowerCaseMessage "quota" || containsSub lowerCaseMessage "rate limit" || containsSub lowerCaseMessage "429" then
    "The API request quota has been exceeded. Please wait a while before trying again."
  else if containsSub lowerCaseMessage "content has been blocked" || containsSub lowerCaseMessage "safety policy" then
    "The request was blocked due to the safety policy. Please modify your script and try again."
  else if containsSub lowerCaseMessage "server error" || containsSub lowerCaseMessage "500" || containsSub lowerCaseMessage "service unavailable" then
    "The AI service is currently experiencing issues. Please try again later."
  else if containsSub lowerCaseMessage "network error" || containsSub lowerCaseMessage "failed to fetch" then
    "A network error occurred. Please check your internet connection and try again."
  else
    match context with
    | ErrContext.start =>
        if errorMessage = unknownMsg then errorMessage
        else "Could not start the interview: " ++ errorMessage ++ "."
    | ErrContext.summary =>
        if errorMessage = unknownMsg then errorMessage
        else "An API error occurred while generating the summary: " ++ errorMessage

/-- getApiErrorMessage: extract a message from the raw error value (keeping
the unknown-error default when none can be extracted) and classify it. -/
def getApiErrorMessage (error : ErrVal) (context : ErrContext) : String :=
  classifyMessage ((extractMessage error).getD unknownMsg) context

/-- The category table of the classifier as the spec describes it: lowercase
substring patterns paired with the user-facing sentence, in priority order. -/
def categoryRules : List (List String × String) := [
  (["api key not valid"],
    "The provided API key is invalid or not activated for this project. Please check your configuration."),
  (["permission denied", "403"],
    "You do not have permission to access this resource. This could be due to an incorrect API key or project settings."),
  (["quota", "rate limit", "429"],
    "The API request quota has been exceeded. Please wait a while before trying again."),
  (["content has been blocked", "safety policy"],
    "The request was blocked due to the safety policy. Please modify your script and try again."),
  (["server error", "500", "service unavailable"],
    "The AI service is currently experiencing issues. Please try again later."),
  (["network error", "failed to fetch"],
    "A network error occurred. Please check your internet connection and try again.")]

/-- First category of the table matched by the lowercased message, if any. -/
def firstMatch (lower : String) : List (List String × String) → Option String
  | [] => none
  | (pats, sentence) :: rest =>
      if pats.any (fun p => containsSub lower p) then some sentence else firstMatch lower rest

/-- The context-specific generic fallback sentences of the classifier. -/
def contextFallback (context : ErrContext) (m : String) : String :=
  match context with
  | ErrContext.start => "Could not start the interview: " ++ m ++ "."
  | ErrContext.summary => "An API error occurred while generating the summary: " ++ m

/-
Welcome audio, from services/geminiService.ts. -/

/-- The outcome of the TTS model call made by generateWelcomeAudio: either a
response whose first candidate carries optional inline audio data, or a
thrown error. -/
inductive TtsOutcome where
  | ok (audio : Option String)
  | thrown
deriving DecidableEq

/-- The per-language welcome messages of generateWelcomeAudio. -/
def welcomeMessages : List (String × String) := [
  ("English", "Hello and welcome to your interview. The session will begin shortly."),
  ("Spanish", "Hola y bienvenido a tu entrevista. La sesión comenzará en breve."),
  ("French", "Bonjour et bienvenue à votre entretien. La session va bientôt commencer."),
  ("German", "Hallo und herzlich willkommen zu Ihrem Interview. Die Sitzung beginnt in Kürze."),
  ("Japanese", "こんにちは、面接へようこそ。セッションは間もなく開始されます。"),
  ("Mandarin Chinese", "您好，欢迎参加面试。面试很快就会开始。"),
  ("Hindi", "नमस्ते और आपके साक्षात्कार में आपका स्वागत है। सत्र शीघ्र ही शुरू होगा।"),
  ("Portuguese", "Olá e bem-vindo à sua entrevista. A sessão começará em breve.")]

/-- The text sent to the TTS model: the message for the language, with the
English message as the truthiness fallback for unknown languages (every
stored message is non-empty, so the fallback fires exactly on a missing
key). -/
def welcomeText (language : String) : String :=
  match welcomeMessages.lookup language with
  | some t => t
  | none => "Hello and welcome to your interview. The session will begin shortly."

/-- generateWelcomeAudio: call the TTS model on the welcome text (the call is
abstracted as a function from request text to outcome); return the inline
audio data when present and truthy, the empty string when the response has no
audio data, and the empty string when the call throws (the catch block fails
gracefully so the interview can still start). -/
def generateWelcomeAudio (language : String) (call : String → TtsOutcome) : String :=
  match call (welcomeText language) with
  | TtsOutcome.ok (some data) => if data = "" then "" else data
  | TtsOutcome.ok none => ""
  | TtsOutcome.thrown => ""

/-
Concrete states used by witnesses and counterexamples.  stHasSpoken is the
started state after an inbound user-transcription delta (which sets
hasSpokenInTurn); stPending additionally has a running silence timer with
deadline 1500; stSuspended additionally has isSilent set. -/

/-- A message carrying only a user transcription delta. -/
def msgUserHello : ServerMessage := { emptyMsg with inputTranscription := some "hello" }

/-- A message carrying only the interrupted flag. -/
def msgInterrupted : ServerMessage := { emptyMsg with interrupted := true }

/-- The started state after one inbound user delta: the turn has speech. -/
def stHasSpoken : AppRefs := { startedRefs with hasSpokenInTurn := true, currentUserText := "hello" }

/-- stHasSpoken with a silence timer running (deadline 1500). -/
def stPending : AppRefs := { stHasSpoken with silenceTimer := some 1500 }

/-- stPending after the timer has fired: sending is suspended. -/
def stSuspended : AppRefs := { stPending with isSilent := true }

/-- A started state with one active playback source and a nonzero cursor. -/
def stActive : AppRefs :=
  { startedRefs with activeSources := [0], nextSourceId := 1, nextStartTime := 2 }

/-- Three half-second chunks all arriving at device time 0. -/
def cks3 : List (ℚ × ℚ) := [(0, 1/2), (0, 1/2), (0, 1/2)]

/-
Helper lemmas about the playback scheduler. -/

lemma chunkStarts_length (chunks : List (ℚ × ℚ)) :
    ∀ st : AppRefs, (chunkStarts st chunks).length = chunks.length := by
  induction chunks with
  | nil => intro st; simp [chunkStarts]
  | cons cd rest ih =>
    intro st
    obtain ⟨t, d⟩ := cd
    simp [chunkStarts, ih]

lemma chunkStarts_ge (chunks : List (ℚ × ℚ)) :
    ∀ st : AppRefs, (∀ c ∈ chunks, 0 ≤ c.2) →
    ∀ i, ∀ hi : i < (chunkStarts st chunks).length,
      st.nextStartTime + ((chunks.take i).map Prod.snd).sum ≤ (chunkStarts st chunks).get ⟨i, hi⟩ := by
  induction chunks with
  | nil => intro st h i hi; simp [chunkStarts] at hi
  | cons cd rest ih =>
    obtain ⟨t, d⟩ := cd
    intro st h i hi
    have hd : 0 ≤ d := h (t, d) (by simp)
    have hrest : ∀ c ∈ rest, 0 ≤ c.2 := fun c hc => h c (by simp [hc])
    cases i with
    | zero =>
      simp [chunkStarts, scheduleChunk]
    | succ i =>
      have hi2 : i < (chunkStarts (scheduleChunk st t d).1 rest).length := by
        simpa [chunkStarts] using hi
      have IH := ih (scheduleChunk st t d).1 hrest i hi2
      have hcursor : st.nextStartTime + d ≤ (scheduleChunk st t d).1.nextStartTime := by
        have := le_max_left st.nextStartTime t
        simp only [scheduleChunk]
        linarith
      have hget : (chunkStarts st ((t, d) :: rest)).get ⟨i + 1, hi⟩
          = (chunkStarts (scheduleChunk st t d).1 rest).get ⟨i, hi2⟩ := by
        simp [chunkStarts]
      rw [hget]
      have hsum : (((t, d) :: rest).take (i + 1)).map Prod.snd
          = d :: (rest.take i).map Prod.snd := by simp
      rw [hsum]
      simp only [List.sum_cons]
      linarith

lemma cursorTrace_chain (chunks : List (ℚ × ℚ)) :
    ∀ st : AppRefs, (∀ c ∈ chunks, 0 ≤ c.2) →
    List.Chain' (fun a b => a ≤ b) (st.nextStartTime :: cursorTrace st chunks) := by
  induction chunks with
  | nil => intro st _; simp [cursorTrace]
  | cons cd rest ih =>
    obtain ⟨t, d⟩ := cd
    intro st h
    have hd : 0 ≤ d := h (t, d) (by simp)
    have hrest : ∀ c ∈ rest, 0 ≤ c.2 := fun c hc => h c (by simp [hc])
    have IH := ih (scheduleChunk st t d).1 hrest
    have hstep : st.nextStartTime ≤ (scheduleChunk st t d).1.nextStartTime := by
      have := le_max_left st.nextStartTime t
      simp only [scheduleChunk]
      linarith
    simpa [cursorTrace] using List.chain'_cons.mpr ⟨hstep, IH⟩

lemma onmessage_audioMsg (st : AppRefs) (t d : ℚ)
    (h1 : st.outputContextOpen = true) (h2 : st.outputGainConnected = true) :
    onmessage st t (audioMsg d) = (scheduleChunk st t d).1 := by
  simp [onmessage, audioStep, interruptStep, outputTransStep, inputTransStep,
    turnCompleteStep, audioMsg, emptyMsg, h1, h2]

/-- C1: for a run of inbound audio-chunk events with no interrupted event,
the handler schedules each chunk at max(cursor, current output time) and then
advances the cursor by the chunk duration (first conjunct, which also shows
the onmessage audio path is exactly the scheduler step when the output nodes
are present); consequently, starting from a zero cursor and nonnegative
durations, the i-th start offset is at least the sum of the first i-1
durations, and the cursor trace is monotonically non-decreasing (second
conjunct). -/
theorem C1_playback_schedule :
    (∀ (st : AppRefs) (t d : ℚ),
        st.outputContextOpen = true → st.outputGainConnected = true →
        onmessage st t (audioMsg d) = (scheduleChunk st t d).1 ∧
        (scheduleChunk st t d).2 = max st.nextStartTime t ∧
        (scheduleChunk st t d).1.nextStartTime = (scheduleChunk st t d).2 + d)
    ∧
    (∀ (chunks : List (ℚ × ℚ)) (st : AppRefs),
        st.nextStartTime = 0 →
        (∀ c ∈ chunks, 0 ≤ c.2) →
        (∀ i, ∀ hi : i < (chunkStarts st chunks).length,
            ((chunks.take i).map Prod.snd).sum ≤ (chunkStarts st chunks).get ⟨i, hi⟩)
        ∧ List.Chain' (fun a b => a ≤ b) (st.nextStartTime :: cursorTrace st chunks)) := by
  constructor
  · intro st t d h1 h2
    exact ⟨onmessage_audioMsg st t d h1 h2, rfl, rfl⟩
  · intro chunks st h0 hd
    constructor
    · intro i hi
      have h := chunkStarts_ge chunks st hd i hi
      rwa [h0, zero_add] at h
    · exact cursorTrace_chain chunks st hd

/-- Witness for C1 at the started state and three half-second chunks. -/
theorem C1_playback_schedule_witness :
    onmessage startedRefs 0 (audioMsg ((1:ℚ)/2)) = (scheduleChunk startedRefs 0 ((1:ℚ)/2)).1 ∧
    ((cks3.take 2).map Prod.snd).sum ≤
      (chunkStarts startedRefs cks3).get ⟨2, by rw [chunkStarts_length]; norm_num [cks3]⟩ ∧
    List.Chain' (fun a b => a ≤ b) (startedRefs.nextStartTime :: cursorTrace startedRefs cks3) := by
  refine ⟨(C1_playback_schedule.1 startedRefs 0 ((1:ℚ)/2) rfl rfl).1, ?_, ?_⟩
  · exact (C1_playback_schedule.2 cks3 startedRefs rfl (by norm_num [cks3])).1 2 _
  · exact (C1_playback_schedule.2 cks3 startedRefs rfl (by norm_num [cks3])).2

/-- C7: the stop/teardown routine is idempotent, is total from any state
(including the never-started one), and leaves zero active resources: the
session closed, the active playback set empty, every node disconnected, the
microphone released, both contexts closed, no pending timer, and the output
timeline cursor reset to zero. -/
theorem C7_cleanup_idempotent (st : AppRefs) :
    cleanupAudio (cleanupAudio st) = cleanupAudio st ∧
    (cleanupAudio st).sessionOpen = false ∧
    (cleanupAudio st).activeSources = [] ∧
    (cleanupAudio st).micStreamHeld = false ∧
    (cleanupAudio st).scriptProcessorConnected = false ∧
    (cleanupAudio st).mediaStreamSourceConnected = false ∧
    (cleanupAudio st).inputGainConnected = false ∧
    (cleanupAudio st).outputGainConnected = false ∧
    (cleanupAudio st).inputContextOpen = false ∧
    (cleanupAudio st).outputContextOpen = false ∧
    (cleanupAudio st).silenceTimer = none ∧
    (cleanupAudio st).nextStartTime = 0 := by
  refine ⟨?_, rfl, rfl, rfl, rfl, rfl, rfl, rfl, rfl, rfl, rfl, rfl⟩
  simp [cleanupAudio]

/-
Helper lemmas about the turn segmenter. -/

lemma oap_speaking (st : AppRefs) (t r : ℚ) (h : SILENCE_THRESHOLD < r) :
    (onaudioprocess st t r).1.silenceTimer = none ∧ (onaudioprocess st t r).1.isSilent = false := by
  simp [onaudioprocess, h]

lemma runFrames_speaking (frames : List (ℚ × ℚ)) :
    ∀ st : AppRefs, st.isSilent = false → st.silenceTimer = none →
    (∀ p ∈ frames, SILENCE_THRESHOLD < p.2) →
    (runFrames st frames).isSilent = false ∧ (runFrames st frames).silenceTimer = none := by
  induction frames with
  | nil => intro st h1 h2 _; exact ⟨h1, h2⟩
  | cons p rest ih =>
    obtain ⟨t, r⟩ := p
    intro st h1 h2 hall
    have hr : SILENCE_THRESHOLD < r := hall (t, r) (by simp)
    have h3 := oap_speaking st t r hr
    have hrest : ∀ q ∈ rest, SILENCE_THRESHOLD < q.2 := fun q hq => hall q (by simp [hq])
    simpa [runFrames] using ih (onaudioprocess st t r).1 h3.2 h3.1 hrest

lemma oap_silent_hold (st : AppRefs) (t r D : ℚ)
    (hr : ¬ SILENCE_THRESHOLD < r) (hT : st.silenceTimer = some D) :
    (onaudioprocess st t r).1 = if D ≤ t then { st with isSilent := true } else st := by
  by_cases hDt : D ≤ t <;> simp [onaudioprocess, fireTimerIfDue, hT, hr, hDt]

lemma silent_after_suspend (frames : List (ℚ × ℚ)) :
    ∀ (st : AppRefs) (D : ℚ), st.isSilent = true → st.silenceTimer = some D →
    (∀ p ∈ frames, ¬ SILENCE_THRESHOLD < p.2) →
    (runFrames st frames).isSilent = true ∧ countSuspend st frames = 0 := by
  induction frames with
  | nil => intro st D h1 _ _; exact ⟨h1, rfl⟩
  | cons p rest ih =>
    obtain ⟨t, r⟩ := p
    intro st D h1 h2 hall
    have hr : ¬ SILENCE_THRESHOLD < r := hall (t, r) (by simp)
    have hst := oap_silent_hold st t r D hr h2
    have key : (onaudioprocess st t r).1.isSilent = true ∧
        (onaudioprocess st t r).1.silenceTimer = some D := by
      rw [hst]; by_cases hDt : D ≤ t <;> simp [hDt, h1, h2]
    have hrest : ∀ q ∈ rest, ¬ SILENCE_THRESHOLD < q.2 := fun q hq => hall q (by simp [hq])
    have IH := ih (onaudioprocess st t r).1 D key.1 key.2 hrest
    refine ⟨by simpa [runFrames] using IH.1, ?_⟩
    simp [countSuspend, h1, IH.2]

lemma silent_pending_fires (frames : List (ℚ × ℚ)) :
    ∀ (st : AppRefs) (D : ℚ), st.isSilent = false → st.silenceTimer = some D →
    (∀ p ∈ frames, ¬ SILENCE_THRESHOLD < p.2) →
    (∃ p ∈ frames, D ≤ p.1) →
    (runFrames st frames).isSilent = true ∧ countSuspend st frames = 1 := by
  induction frames with
  | nil => intro st D _ _ _ hex; simp at hex
  | cons p rest ih =>
    obtain ⟨t, r⟩ := p
    intro st D h1 h2 hall hex
    have hr : ¬ SILENCE_THRESHOLD < r := hall (t, r) (by simp)
    have hst := oap_silent_hold st t r D hr h2
    have hrest : ∀ q ∈ rest, ¬ SILENCE_THRESHOLD < q.2 := fun q hq => hall q (by simp [hq])
    by_cases hDt : D ≤ t
    · have hst1 : (onaudioprocess st t r).1 = { st with isSilent := true } := by
        rw [hst]; simp [hDt]
      have after := silent_after_suspend rest { st with isSilent := true } D
        (by simp) (by simp [h2]) hrest
      refine ⟨by simpa [runFrames, hst1] using after.1, ?_⟩
      simp [countSuspend, hst1, h1, after.2]
    · have hst1 : (onaudioprocess st t r).1 = st := by
        rw [hst]; simp [hDt]
      have hex2 : ∃ q ∈ rest, D ≤ q.1 := by
        obtain ⟨q, hq, hDq⟩ := hex
        rcases List.mem_cons.mp hq with h | h
        · exact absurd (by rw [h] at hDq; exact hDq) hDt
        · exact ⟨q, h, hDq⟩
      have IH := ih st D h1 h2 hrest hex2
      refine ⟨by simpa [runFrames, hst1] using IH.1, ?_⟩
      simp [countSuspend, hst1, h1, IH.2]

lemma silence_episode (st : AppRefs) (t0 r0 : ℚ) (rest : List (ℚ × ℚ))
    (hs : st.hasSpokenInTurn = true) (h1 : st.isSilent = false) (h2 : st.silenceTimer = none)
    (hall : ∀ p ∈ (t0, r0) :: rest, p.2 < SILENCE_THRESHOLD)
    (hex : ∃ p ∈ (t0, r0) :: rest, t0 + SILENCE_DURATION_MS ≤ p.1) :
    (runFrames st ((t0, r0) :: rest)).isSilent = true ∧
    countSuspend st ((t0, r0) :: rest) = 1 := by
  have hr0 : ¬ SILENCE_THRESHOLD < r0 := not_lt.mpr (le_of_lt (hall (t0, r0) (by simp)))
  have hst1 : (onaudioprocess st t0 r0).1
      = { st with silenceTimer := some (t0 + SILENCE_DURATION_MS) } := by
    simp [onaudioprocess, fireTimerIfDue, h2, hr0, hs]
  have hex2 : ∃ q ∈ rest, t0 + SILENCE_DURATION_MS ≤ q.1 := by
    obtain ⟨q, hq, hDq⟩ := hex
    rcases List.mem_cons.mp hq with h | h
    · exfalso
      rw [h] at hDq
      have hpos : (0:ℚ) < SILENCE_DURATION_MS := by norm_num [SILENCE_DURATION_MS]
      simp only at hDq
      linarith
    · exact ⟨q, h, hDq⟩
  have hallr : ∀ q ∈ rest, ¬ SILENCE_THRESHOLD < q.2 :=
    fun q hq => not_lt.mpr (le_of_lt (hall q (by simp [hq])))
  have main := silent_pending_fires rest { st with silenceTimer := some (t0 + SILENCE_DURATION_MS) }
    (t0 + SILENCE_DURATION_MS) (by simp [h1]) (by simp) hallr hex2
  have main2 := main.2
  rw [h1] at main2
  refine ⟨by simpa [runFrames, hst1] using main.1, ?_⟩
  simp [countSuspend, hst1, h1, main2]

/-- C5 (amended): for every run of audio frames whose RMS is strictly above
SILENCE_THRESHOLD, started from any segmenter state that is not suspended and
has no pending timer, every intermediate state is still not suspended
(outbound sending is never gated off) and has no pending silence timer.  (The
claim as stated, with RMS equal to the threshold allowed, is refuted by
C5_threshold_counterexample: the source classifies a frame as silent unless
its RMS is strictly greater than the threshold.) -/
theorem C5_speech_frames_keep_active (st : AppRefs) (frames : List (ℚ × ℚ))
    (h1 : st.isSilent = false) (h2 : st.silenceTimer = none)
    (hall : ∀ p ∈ frames, SILENCE_THRESHOLD < p.2) :
    ∀ n : Nat,
      (runFrames st (frames.take n)).isSilent = false ∧
      (runFrames st (frames.take n)).silenceTimer = none := by
  intro n
  exact runFrames_speaking (frames.take n) st h1 h2
    (fun p hp => hall p (List.take_subset n frames hp))

/-- Witness for C5 at the started state and one frame of RMS 1/50. -/
theorem C5_speech_frames_keep_active_witness :
    (runFrames startedRefs [((0:ℚ), (1:ℚ)/50)]).isSilent = false ∧
    (runFrames startedRefs [((0:ℚ), (1:ℚ)/50)]).silenceTimer = none := by
  have h := C5_speech_frames_keep_active startedRefs [((0:ℚ), (1:ℚ)/50)] rfl rfl
    (by norm_num [SILENCE_THRESHOLD]) 1
  simpa using h

/-- Counterexample to C5 as stated: from the reachable state stHasSpoken
(started state plus one inbound user delta, so the turn has speech, sending
is not suspended and no timer is pending), a single frame whose RMS equals
the threshold — hence satisfies RMS at-least-threshold — leaves a pending
silence timer, because the source treats RMS equal to SILENCE_THRESHOLD as
silence. -/
theorem C5_threshold_counterexample :
    onmessage startedRefs 0 msgUserHello = stHasSpoken ∧
    stHasSpoken.isSilent = false ∧
    stHasSpoken.silenceTimer = none ∧
    SILENCE_THRESHOLD ≤ (1:ℚ)/100 ∧
    (runFrames stHasSpoken [((0:ℚ), (1:ℚ)/100)]).silenceTimer = some SILENCE_DURATION_MS ∧
    (runFrames stHasSpoken [((0:ℚ), (1:ℚ)/100)]).isSilent = false := by
  refine ⟨by decide, rfl, rfl, by norm_num [SILENCE_THRESHOLD], ?_, ?_⟩ <;>
    norm_num [stHasSpoken, startedRefs, runFrames, onaudioprocess, fireTimerIfDue,
      SILENCE_THRESHOLD, SILENCE_DURATION_MS]

/-- C6 (amended): first conjunct — if the turn has speech, sending is not
suspended and no timer is pending, then a run of frames that are all below
the threshold and that reaches at least SILENCE_DURATION_MS past the first
frame ends suspended, and the suspension transition happens exactly once over
the run; second conjunct — while a timer is pending and sending not yet
suspended, a single frame with RMS strictly above the threshold cancels the
timer and leaves sending active.  (The claim as stated, which lets a frame
with RMS exactly at the threshold cancel the timer, is refuted by
C6_boundary_counterexample.) -/
theorem C6_silence_timeout :
    (∀ (st : AppRefs) (t0 r0 : ℚ) (rest : List (ℚ × ℚ)),
        st.hasSpokenInTurn = true → st.isSilent = false → st.silenceTimer = none →
        (∀ p ∈ (t0, r0) :: rest, p.2 < SILENCE_THRESHOLD) →
        (∃ p ∈ (t0, r0) :: rest, t0 + SILENCE_DURATION_MS ≤ p.1) →
        (runFrames st ((t0, r0) :: rest)).isSilent = true ∧
        countSuspend st ((t0, r0) :: rest) = 1)
    ∧
    (∀ (st : AppRefs) (t r D : ℚ),
        st.silenceTimer = some D → st.isSilent = false → SILENCE_THRESHOLD < r →
        (onaudioprocess st t r).1.silenceTimer = none ∧
        (onaudioprocess st t r).1.isSilent = false) := by
  constructor
  · intro st t0 r0 rest hs h1 h2 hall hex
    exact silence_episode st t0 r0 rest hs h1 h2 hall hex
  · intro st t r D _ _ hr
    exact oap_speaking st t r hr

/-- Witness for C6: a silent run from stHasSpoken spanning past the deadline
suspends exactly once, and a loud frame during stPending cancels the timer. -/
theorem C6_silence_timeout_witness :
    ((runFrames stHasSpoken [((0:ℚ), (0:ℚ)), (1600, 0)]).isSilent = true ∧
     countSuspend stHasSpoken [((0:ℚ), (0:ℚ)), (1600, 0)] = 1) ∧
    ((onaudioprocess stPending 100 ((1:ℚ)/50)).1.silenceTimer = none ∧
     (onaudioprocess stPending 100 ((1:ℚ)/50)).1.isSilent = false) := by
  constructor
  · exact C6_silence_timeout.1 stHasSpoken 0 0 [(1600, 0)] rfl rfl rfl
      (by norm_num [SILENCE_THRESHOLD])
      ⟨(1600, 0), by norm_num, by norm_num [SILENCE_DURATION_MS]⟩
  · exact C6_silence_timeout.2 stPending 100 ((1:ℚ)/50) 1500 rfl rfl
      (by norm_num [SILENCE_THRESHOLD])

/-- Counterexample to C6 as stated: stPending is reachable from stHasSpoken
by one silent frame at time 0 (its timer deadline is 1500); a frame at time
100 whose RMS equals the threshold — hence is at-or-above it — does not
cancel the pending timer, because only RMS strictly above SILENCE_THRESHOLD
counts as speech in the source. -/
theorem C6_boundary_counterexample :
    runFrames stHasSpoken [((0:ℚ), (0:ℚ))] = stPending ∧
    stPending.silenceTimer = some (1500:ℚ) ∧
    stPending.isSilent = false ∧
    SILENCE_THRESHOLD ≤ (1:ℚ)/100 ∧
    (onaudioprocess stPending 100 ((1:ℚ)/100)).1.silenceTimer = some (1500:ℚ) ∧
    (onaudioprocess stPending 100 ((1:ℚ)/100)).1.isSilent = false := by
  refine ⟨?_, rfl, rfl, by norm_num [SILENCE_THRESHOLD], ?_, ?_⟩ <;>
    norm_num [stHasSpoken, stPending, startedRefs, runFrames, onaudioprocess, fireTimerIfDue,
      SILENCE_THRESHOLD, SILENCE_DURATION_MS]

/-
Helper lemmas about onmessage field preservation. -/

lemma audioStep_active (st : AppRefs) (t : ℚ) (msg : ServerMessage) :
    ∃ extra, (audioStep st t msg).activeSources = st.activeSources ++ extra ∧
      (audioStep st t msg).stoppedSources = st.stoppedSources := by
  cases h : msg.audioChunk with
  | none => exact ⟨[], by simp [audioStep, h]⟩
  | some d =>
    by_cases hg : st.outputContextOpen && st.outputGainConnected
    · exact ⟨[st.nextSourceId], by simp [audioStep, h, hg, scheduleChunk]⟩
    · exact ⟨[], by simp [audioStep, h, hg]⟩

lemma outputTransStep_fields (st : AppRefs) (msg : ServerMessage) :
    (outputTransStep st msg).activeSources = st.activeSources ∧
    (outputTransStep st msg).stoppedSources = st.stoppedSources ∧
    (outputTransStep st msg).nextStartTime = st.nextStartTime := by
  cases h : msg.outputTranscription <;> simp [outputTransStep, h]

lemma inputTransStep_fields (st : AppRefs) (msg : ServerMessage) :
    (inputTransStep st msg).activeSources = st.activeSources ∧
    (inputTransStep st msg).stoppedSources = st.stoppedSources ∧
    (inputTransStep st msg).nextStartTime = st.nextStartTime := by
  cases h : msg.inputTranscription with
  | none => simp [inputTransStep, h]
  | some txt => by_cases ht : trimStr txt = "" <;> simp [inputTransStep, h, ht]

lemma turnCompleteStep_fields (st : AppRefs) (msg : ServerMessage) :
    (turnCompleteStep st msg).activeSources = st.activeSources ∧
    (turnCompleteStep st msg).stoppedSources = st.stoppedSources ∧
    (turnCompleteStep st msg).nextStartTime = st.nextStartTime := by
  by_cases h : msg.turnComplete <;> simp [turnCompleteStep, finalizeTurn, h]

lemma post_fields (st2 : AppRefs) (msg : ServerMessage) :
    (turnCompleteStep (inputTransStep (outputTransStep st2 msg) msg) msg).activeSources
        = st2.activeSources ∧
    (turnCompleteStep (inputTransStep (outputTransStep st2 msg) msg) msg).stoppedSources
        = st2.stoppedSources ∧
    (turnCompleteStep (inputTransStep (outputTransStep st2 msg) msg) msg).nextStartTime
        = st2.nextStartTime := by
  obtain ⟨a1, a2, a3⟩ := outputTransStep_fields st2 msg
  obtain ⟨b1, b2, b3⟩ := inputTransStep_fields (outputTransStep st2 msg) msg
  obtain ⟨c1, c2, c3⟩ := turnCompleteStep_fields (inputTransStep (outputTransStep st2 msg) msg) msg
  exact ⟨by rw [c1, b1, a1], by rw [c2, b2, a2], by rw [c3, b3, a3]⟩

/-- C2: an inbound event with the interrupted flag set leaves the
active-playback set empty, resets the timeline cursor to exactly zero
(independently of the device time t passed in), and every source that was in
the active set has been stopped. -/
theorem C2_interrupted_resets (st : AppRefs) (t : ℚ) (msg : ServerMessage)
    (h : msg.interrupted = true) :
    (onmessage st t msg).activeSources = [] ∧
    (onmessage st t msg).nextStartTime = 0 ∧
    ∀ i ∈ st.activeSources, i ∈ (onmessage st t msg).stoppedSources := by
  obtain ⟨extra, hact, hstop⟩ := audioStep_active st t msg
  have hint : interruptStep (audioStep st t msg) msg
      = { audioStep st t msg with
            stoppedSources := (audioStep st t msg).stoppedSources ++ (audioStep st t msg).activeSources,
            activeSources := [],
            nextStartTime := 0 } := by
    simp [interruptStep, h]
  obtain ⟨p1, p2, p3⟩ := post_fields (interruptStep (audioStep st t msg) msg) msg
  refine ⟨?_, ?_, ?_⟩
  · show (turnCompleteStep (inputTransStep (outputTransStep
        (interruptStep (audioStep st t msg) msg) msg) msg) msg).activeSources = []
    rw [p1, hint]
  · show (turnCompleteStep (inputTransStep (outputTransStep
        (interruptStep (audioStep st t msg) msg) msg) msg) msg).nextStartTime = 0
    rw [p3, hint]
  · intro i hi
    show i ∈ (turnCompleteStep (inputTransStep (outputTransStep
        (interruptStep (audioStep st t msg) msg) msg) msg) msg).stoppedSources
    rw [p2, hint]
    simp only [hact, hstop, List.mem_append]
    exact Or.inr (Or.inl hi)

/-- Witness for C2 at a state with one active source and a nonzero cursor. -/
theorem C2_interrupted_resets_witness :
    (onmessage stActive 7 msgInterrupted).activeSources = [] ∧
    (onmessage stActive 7 msgInterrupted).nextStartTime = 0 ∧
    0 ∈ (onmessage stActive 7 msgInterrupted).stoppedSources := by
  obtain ⟨h1, h2, h3⟩ := C2_interrupted_resets stActive 7 msgInterrupted rfl
  exact ⟨h1, h2, h3 0 (by simp [stActive])⟩

/-- C3: processing a turn-complete event appends to the transcript exactly
the You entry (when the trimmed user buffer is non-empty) followed by the
Interviewer entry (when the trimmed interviewer buffer is non-empty) — hence
at most two entries, user first — and clears both buffers (first conjunct,
for every state and device time); with user buffer hello and interviewer
buffer hi there the result is the two entries in order, and with an empty
user buffer only the Interviewer entry is appended (remaining conjuncts). -/
theorem C3_turn_finalization :
    (∀ (st : AppRefs) (t : ℚ),
        (onmessage st t msgTurnComplete).transcript =
          st.transcript
            ++ (if trimStr st.currentUserText = "" then []
                else [{ speaker := Speaker.you, text := trimStr st.currentUserText }])
            ++ (if trimStr st.currentInterviewerText = "" then []
                else [{ speaker := Speaker.interviewer, text := trimStr st.currentInterviewerText }]) ∧
        (onmessage st t msgTurnComplete).currentUserText = "" ∧
        (onmessage st t msgTurnComplete).currentInterviewerText = "")
    ∧
    (onmessage { startedRefs with currentUserText := "hello", currentInterviewerText := "hi there" }
        0 msgTurnComplete).transcript
      = [{ speaker := Speaker.you, text := "hello" },
         { speaker := Speaker.interviewer, text := "hi there" }]
    ∧
    (onmessage { startedRefs with currentInterviewerText := "hi there" } 0 msgTurnComplete).transcript
      = [{ speaker := Speaker.interviewer, text := "hi there" }] := by
  refine ⟨?_, by decide, by decide⟩
  intro st t
  simp [onmessage, audioStep, interruptStep, outputTransStep, inputTransStep,
    turnCompleteStep, finalizeTurn, msgTurnComplete, emptyMsg]

/-- C4: an inbound event with the turnComplete flag, from every state and
whatever the local timer state was, resets hasSpokenInTurn to false, clears
the pending silence timer, and re-enables outbound sending (isSilent becomes
false). -/
theorem C4_turn_complete_resets (st : AppRefs) (t : ℚ) (msg : ServerMessage)
    (h : msg.turnComplete = true) :
    (onmessage st t msg).hasSpokenInTurn = false ∧
    (onmessage st t msg).isSilent = false ∧
    (onmessage st t msg).silenceTimer = none := by
  simp [onmessage, turnCompleteStep, h]

/-- Witness for C4 at the suspended state (speech flag set, timer stored,
sending gated off): turn-complete clears all three. -/
theorem C4_turn_complete_resets_witness :
    (onmessage stSuspended 0 msgTurnComplete).hasSpokenInTurn = false ∧
    (onmessage stSuspended 0 msgTurnComplete).isSilent = false ∧
    (onmessage stSuspended 0 msgTurnComplete).silenceTimer = none :=
  C4_turn_complete_resets stSuspended 0 msgTurnComplete rfl

/-
Helper lemmas about the error classifier. -/

lemma classify_firstMatch (m : String) (ctx : ErrContext) :
    classifyMessage m ctx =
      match firstMatch (lowerStr m) categoryRules with
      | some s => s
      | none => if m = unknownMsg then unknownMsg else contextFallback ctx m := by
  simp only [classifyMessage, categoryRules, firstMatch, List.any_cons, List.any_nil,
    Bool.or_false, Bool.or_assoc]
  split_ifs <;> try rfl
  all_goals cases ctx <;> simp_all [contextFallback]

lemma string_append_ne (a b : String) (h : a.data ≠ []) : a ++ b ≠ "" := by
  intro hab
  apply h
  have h2 : a.data ++ b.data = [] := congrArg String.data hab
  exact (List.append_eq_nil.mp h2).1

lemma prefixed_ne_empty (a b c : String) (h : a.data ≠ []) : a ++ b ++ c ≠ "" := by
  apply string_append_ne
  intro h2
  apply h
  have h3 : a.data ++ b.data = [] := h2
  exact (List.append_eq_nil.mp h3).1

lemma classify_ne_empty (m : String) (ctx : ErrContext) : classifyMessage m ctx ≠ "" := by
  simp only [classifyMessage]
  split_ifs <;> try decide
  all_goals cases ctx <;> simp_all
  all_goals first
    | decide
    | (apply prefixed_ne_empty; decide)
    | (apply string_append_ne; decide)

/-- C8 (amended): for every raw error value and context tag, the classifier
returns exactly the sentence of the first category of the priority table
whose lowercase pattern occurs in the lowercased extracted message; when no
category matches it returns the generic message contextualized by the tag,
except when the extracted message is the unknown-error default (in particular
when no message could be extracted), in which case that default is returned
unchanged for both tags.  (The exception refutes the claim as stated; see
C8_default_counterexample.) -/
theorem C8_classifier_priority (e : ErrVal) (ctx : ErrContext) :
    getApiErrorMessage e ctx =
      match firstMatch (lowerStr ((extractMessage e).getD unknownMsg)) categoryRules with
      | some s => s
      | none =>
          if (extractMessage e).getD unknownMsg = unknownMsg then unknownMsg
          else contextFallback ctx ((extractMessage e).getD unknownMsg) := by
  simpa [getApiErrorMessage] using classify_firstMatch ((extractMessage e).getD unknownMsg) ctx

/-- Counterexample to C8 as stated: for the null error value no category
matches the extracted message (there is none, so the unknown-error default is
classified), yet the classifier does not return the tag-contextualized
generic sentence — it returns the bare default, identically for both tags. -/
theorem C8_default_counterexample :
    extractMessage ErrVal.jsNull = none ∧
    firstMatch (lowerStr unknownMsg) categoryRules = none ∧
    getApiErrorMessage ErrVal.jsNull ErrContext.start = unknownMsg ∧
    getApiErrorMessage ErrVal.jsNull ErrContext.summary = unknownMsg ∧
    getApiErrorMessage ErrVal.jsNull ErrContext.start
      ≠ contextFallback ErrContext.start unknownMsg ∧
    getApiErrorMessage ErrVal.jsNull ErrContext.summary
      ≠ contextFallback ErrContext.summary unknownMsg := by
  refine ⟨rfl, by decide, by decide, by decide, by decide, by decide⟩

/-- C10: the error classifier is total over the embedded error value shapes
(null, undefined, plain string, Error instance, object with a message field,
object wrapping another error) — it is a total function in this embedding,
so it never throws — and for every input and tag it returns a non-empty
string; when no message can be extracted it returns exactly the
unknown-error default sentence. -/
theorem C10_classifier_total (e : ErrVal) (ctx : ErrContext) :
    getApiErrorMessage e ctx ≠ "" ∧
    (extractMessage e = none → getApiErrorMessage e ctx = unknownMsg) := by
  constructor
  · exact classify_ne_empty ((extractMessage e).getD unknownMsg) ctx
  · intro h
    simp only [getApiErrorMessage, h, Option.getD_none]
    cases ctx <;> decide

/-- Witness for C10 at the undefined error value, whose message extraction
fails. -/
theorem C10_classifier_total_witness :
    getApiErrorMessage ErrVal.jsUndefined ErrContext.summary ≠ "" ∧
    getApiErrorMessage ErrVal.jsUndefined ErrContext.summary = unknownMsg :=
  ⟨(C10_classifier_total ErrVal.jsUndefined ErrContext.summary).1,
   (C10_classifier_total ErrVal.jsUndefined ErrContext.summary).2 rfl⟩

/-- C9: the welcome-audio generator is best-effort: for every language and
every outcome of the underlying TTS call it returns either the synthesized
base64 audio data or the empty string; in particular a thrown model call or
a response without audio data yields the empty string instead of an
exception (the function is total in this embedding), so a welcome-audio
failure never aborts session start. -/
theorem C9_welcome_best_effort (language : String) (call : String → TtsOutcome) :
    (generateWelcomeAudio language call = "" ∨
      ∃ d, call (welcomeText language) = TtsOutcome.ok (some d) ∧
        generateWelcomeAudio language call = d) ∧
    (call (welcomeText language) = TtsOutcome.thrown → generateWelcomeAudio language call = "") ∧
    (call (welcomeText language) = TtsOutcome.ok none → generateWelcomeAudio language call = "") := by
  refine ⟨?_, ?_, ?_⟩
  · cases h : call (welcomeText language) with
    | thrown => left; simp [generateWelcomeAudio, h]
    | ok audio =>
      cases audio with
      | none => left; simp [generateWelcomeAudio, h]
      | some d =>
        by_cases hd : d = ""
        · left; simp [generateWelcomeAudio, h, hd]
        · right; exact ⟨d, rfl, by simp [generateWelcomeAudio, h, hd]⟩
  · intro h; simp [generateWelcomeAudio, h]
  · intro h; simp [generateWelcomeAudio, h]

/-- Witness for C9: a throwing TTS call yields the empty string. -/
theorem C9_welcome_best_effort_witness :
    generateWelcomeAudio "English" (fun _ => TtsOutcome.thrown) = "" :=
  (C9_welcome_best_effort "English" (fun _ => TtsOutcome.thrown)).2.1 rfl
